import Mathlib

/- Formal verification of the HPE-Data-Generator repository (live_inserter.py
and main.py): a shallow embedding of the value generator, the backfill engine,
the live scheduler's sleep computation, the self-ping schedule and the
timestamp handling, with theorems settling the specification's claims against
the code.

Conventions: time is measured in whole minutes (the code truncates seconds and
microseconds before using a timestamp), with zero at the epoch origin
datetime(2025, 4, 10); storage quantities (GB) are rationals; Python's
round(x, 2) is embedded as exact decimal rounding to two places with
half-to-even tie breaking; the random draws consumed by np.random are passed
in explicitly, so a property quantified over all draws covers every run; a
store insert that may raise is modelled by an explicit failure flag. -/

namespace HPE

/-- Python round(x, 2): round to 2 decimal places, ties to even (banker's
rounding), embedded exactly over the rationals. -/
def pyRound2 (q : ℚ) : ℚ :=
  if q * 100 - ⌊q * 100⌋ < 1/2 then (⌊q * 100⌋ : ℚ) / 100
  else if 1/2 < q * 100 - ⌊q * 100⌋ then ((⌊q * 100⌋ + 1 : ℤ) : ℚ) / 100
  else if ⌊q * 100⌋ % 2 = 0 then (⌊q * 100⌋ : ℚ) / 100
  else ((⌊q * 100⌋ + 1 : ℤ) : ℚ) / 100

/-- Per-directory storage profile, from the profiles table of live_inserter.py
(base, volatility, drift, spike probability, drop probability). -/
structure Profile where
  base : ℚ
  volatility : ℚ
  drift : ℚ
  spike : ℚ
  drop : ℚ
deriving DecidableEq

/-- The "/scratch" profile hard-coded in live_inserter.py. -/
def scratchCfg : Profile := ⟨1500, 13/2, 1/125, 1/250, 3/1000⟩

/-- The "/projects" profile hard-coded in live_inserter.py. -/
def projectsCfg : Profile := ⟨900, 4, 11/2000, 1/400, 1/500⟩

/-- The "/customer" profile hard-coded in live_inserter.py. -/
def customerCfg : Profile := ⟨600, 2, 3/1000, 3/2000, 1/1000⟩

/-- The "/info" profile hard-coded in live_inserter.py. -/
def infoCfg : Profile := ⟨400, 6/5, 9/5000, 1/1000, 1/1250⟩

/-- The profiles table of live_inserter.py, in declaration order. -/
def profiles : List (String × Profile) :=
  [("/scratch", scratchCfg), ("/projects", projectsCfg),
   ("/customer", customerCfg), ("/info", infoCfg)]

/-- One tick's worth of random draws consumed by generate_value:
driftS is the np.random.normal(cfg.drift, cfg.drift*0.25) sample, changeS the
np.random.normal(0, cfg.volatility) sample, spikeR and dropR the two
np.random.rand() samples, spikeU the np.random.uniform(10, 60) sample and
dropU the np.random.uniform(5, 80) sample. -/
structure Draws where
  driftS : ℚ
  changeS : ℚ
  spikeR : ℚ
  spikeU : ℚ
  dropR : ℚ
  dropU : ℚ
deriving DecidableEq

/-- generate_value (live_inserter.py lines 61-71), normal path: returns
(new_val, added, deleted, updated). -/
def generate_value (prev_val : ℚ) (cfg : Profile) (d : Draws) : ℚ × ℚ × ℚ × ℚ :=
  let change := d.changeS
    + (if d.spikeR < cfg.spike then d.spikeU else 0)
    - (if d.dropR < cfg.drop then d.dropU else 0)
  let new_val := pyRound2 (max (prev_val + d.driftS + change) 0)
  let delta := new_val - prev_val
  (new_val, pyRound2 (max delta 0), pyRound2 (max (-delta) 0), pyRound2 |delta|)

/-- generate_value (live_inserter.py lines 72-76), error-fallback path: the
except branch returns (prev_val + 0.01, 0.01, 0, 0.01). -/
def generate_value_fallback (prev_val : ℚ) : ℚ × ℚ × ℚ × ℚ :=
  (prev_val + 1/100, 1/100, 0, 1/100)

/-- A deterministic draw: no drift, no noise, and rand samples of 1/2 so that
neither the spike branch nor the drop branch fires for any of the four
profiles (all probabilities are below 1/2). -/
def d0 : Draws := ⟨0, 0, 1/2, 10, 1/2, 5⟩

/-- A draw that deterministically raises the value by exactly 1 (drift sample
1, no noise, no spike, no drop). -/
def dUp : Draws := ⟨1, 0, 1/2, 10, 1/2, 5⟩

/-- One persisted document, as built in live_inserter.py (lines 89-96 for
backfill, lines 210-217 for live mode). Timestamps are whole minutes. -/
structure Sample where
  timestamp : ℤ
  directory : String
  storage_gb : ℚ
  added_gb : ℚ
  deleted_gb : ℚ
  updated_gb : ℚ
deriving DecidableEq

/-- datetime(2025, 4, 10), the fallback of get_last_timestamp
(live_inserter.py line 53): the zero of our minute scale. -/
def epochOrigin : ℤ := 0

/-- The list start, start+15, ..., start+15*(n-1): n instants spaced 15
minutes apart. -/
def dateRangeAux (start : ℤ) : ℕ → List ℤ
  | 0 => []
  | n + 1 => start :: dateRangeAux (start + 15) n

/-- pd.date_range(start, stop, freq="15min") for whole-minute bounds: every
instant start + 15*k lying in [start, stop]; empty when start > stop. -/
def dateRange (start stop : ℤ) : List ℤ :=
  if start ≤ stop then dateRangeAux start ((stop - start) / 15 + 1).toNat else []

/-- The document-building loop of generate_and_bulk_insert (live_inserter.py
lines 86-97): thread prev_val through generate_value over the timestamp list,
collecting one document per timestamp; i indexes the random source. Returns
the final prev_val and the document list. -/
def genDocs (dirName : String) (cfg : Profile) (r : ℕ → Draws) :
    ℕ → ℚ → List ℤ → ℚ × List Sample
  | _, prev, [] => (prev, [])
  | i, prev, ts :: rest =>
    let g := generate_value prev cfg (r i)
    let tail := genDocs dirName cfg r (i + 1) g.1 rest
    (tail.1, ⟨ts, dirName, g.1, g.2.1, g.2.2.1, g.2.2.2⟩ :: tail.2)

/-- generate_and_bulk_insert (live_inserter.py lines 78-110). Returns the
value and timestamp the Python function returns, plus the list of documents
actually persisted (empty when insert_many raises, which the insertFails flag
models: the except branch at lines 107-110 then returns the prev_val local —
already reassigned by the loop — and start_ts - 15min). -/
def generate_and_bulk_insert (dirName : String) (cfg : Profile)
    (start_ts end_ts : ℤ) (prev_val : ℚ) (r : ℕ → Draws) (insertFails : Bool) :
    ℚ × ℤ × List Sample :=
  match dateRange start_ts end_ts with
  | [] => (prev_val, start_ts - 15, [])
  | ts :: rest =>
    let g := genDocs dirName cfg r 0 prev_val (ts :: rest)
    if insertFails then (g.1, start_ts - 15, [])
    else (g.1, (ts :: rest).getLast (List.cons_ne_nil ts rest), g.2)

/-- The per-series backfill body (live_inserter.py lines 157-170). The series'
persisted state is abstracted to its latest sample: latest = some (ts, v)
means the newest stored document has timestamp ts and storage_gb v; none
means the series is empty (get_last_timestamp then falls back to the epoch
origin and the value to cfg.base). Returns the series' new in-memory value
and the list of documents written. -/
def backfillSeries (dirName : String) (cfg : Profile) (latest : Option (ℤ × ℚ))
    (now : ℤ) (r : ℕ → Draws) (insertFails : Bool) : ℚ × List Sample :=
  let last_ts := (latest.map Prod.fst).getD epochOrigin
  let prev_val := (latest.map Prod.snd).getD cfg.base
  let start_ts := last_ts + 15
  if start_ts ≤ now then
    let g := generate_and_bulk_insert dirName cfg start_ts now prev_val r insertFails
    (g.1, g.2.2)
  else (prev_val, [])

/-- The series' latest persisted sample after a list of appended writes (the
writes carry increasing timestamps, so the newest is the last one). -/
def storeAfter (latest : Option (ℤ × ℚ)) (writes : List Sample) : Option (ℤ × ℚ) :=
  match writes.getLast? with
  | some s => some (s.timestamp, s.storage_gb)
  | none => latest

/-- Everything outside the code that determines one series' backfill run: its
persisted latest sample, its random draws, whether insert_many raises, and
whether anything else in the series' try block (lines 155-171) raises. -/
structure SeriesEnv where
  latest : Option (ℤ × ℚ)
  draws : ℕ → Draws
  insertFails : Bool
  procErr : Bool

/-- One iteration of the backfill loop (live_inserter.py lines 154-174): the
try/except around the series body maps any error to last_vals[dir] = cfg.base
with nothing written. -/
def processSeries (dirName : String) (cfg : Profile) (env : SeriesEnv) (now : ℤ) :
    ℚ × List Sample :=
  if env.procErr then (cfg.base, [])
  else backfillSeries dirName cfg env.latest now env.draws env.insertFails

/-- The whole backfill phase: the for loop over the profiles table, producing
the last_vals entry (and the writes) for every series. -/
def backfillPhase (series : List (String × Profile)) (envs : String → SeriesEnv)
    (now : ℤ) : List (String × ℚ × List Sample) :=
  series.map fun p => (p.1, processSeries p.1 p.2 (envs p.1) now)

/-- The environment family in which series d additionally hits a processing
error, and every other series is untouched. -/
def setErr (envs : String → SeriesEnv) (d : String) : String → SeriesEnv :=
  fun x => if x = d then { envs x with procErr := true } else envs x

/-- The live scheduler's sleep computation (live_inserter.py lines 232-236),
in seconds: next_slot = now + 15 minutes; sleep_time = next_slot - current
wall clock; a non-positive result is replaced by 15*60. nowSnap is the
minute-truncated snapshot taken at the top of the cycle. -/
def live_sleep_seconds (nowSnap current : ℚ) : ℚ :=
  let next_slot := nowSnap + 15 * 60
  let sleep_time := next_slot - current
  if sleep_time ≤ 0 then 15 * 60 else sleep_time

/-- The timezone attached to a Python datetime we care about. -/
inductive TZ
  | utc
deriving DecidableEq

/-- A Python datetime: the wall-clock minutes it displays, and its tzinfo
(none = timezone-naive). -/
structure PyDatetime where
  wall : ℤ
  tzinfo : Option TZ
deriving DecidableEq

/-- datetime.now() on a host whose local clock is off minutes ahead of UTC,
at true UTC instant t: a timezone-naive datetime showing local wall time. -/
def datetime_now (t off : ℤ) : PyDatetime := ⟨t + off, none⟩

/-- main.py's get_utc_datetime_iso (lines 43-49): datetime.now(IST) converted
with astimezone(utc) — the true UTC instant, tagged as UTC. -/
def get_utc_datetime_iso (t : ℤ) : PyDatetime := ⟨t, some TZ.utc⟩

/-- The timestamp live_inserter.py stores in live mode (lines 201 and 211):
datetime.now().replace(second=0, microsecond=0), a naive local-time datetime
(minute truncation is already absorbed by the minute scale). -/
def live_doc_timestamp (t off : ℤ) : PyDatetime := datetime_now t off

/-- A datetime is UTC-normalized for true instant t when it is UTC-aware and
shows the UTC wall time. -/
def utcNormalized (d : PyDatetime) (t : ℤ) : Prop :=
  d.tzinfo = some TZ.utc ∧ d.wall = t

/-- The self-ping schedule of the live loop (live_inserter.py lines 197 and
226-230): cycles run at t, t+15, t+45, ...; at each cycle, if the wall clock
has reached next_ping_time a ping fires and next_ping_time becomes now + 5
minutes. Returns the instants at which pings fire during the first n cycles,
given the pending next_ping_time. -/
def pingTimesAux : ℤ → ℤ → ℕ → List ℤ
  | _, _, 0 => []
  | nextPing, t, n + 1 =>
    if nextPing ≤ t then t :: pingTimesAux (t + 5) (t + 15) n
    else pingTimesAux nextPing (t + 15) n

/-- Ping instants over the first n cycles of a live loop entered at t0
(next_ping_time is initialized to t0 + 5 at line 197). -/
def pingTimes (t0 : ℤ) (n : ℕ) : List ℤ := pingTimesAux (t0 + 5) t0 n

/-- A benign series environment: empty store, deterministic draws, no
failures. -/
def env0 : SeriesEnv := ⟨none, fun _ => d0, false, false⟩

/- ------------------------------------------------------------------ -/
/- Theorems.                                                          -/
/- ------------------------------------------------------------------ -/

theorem pyRound2_form (q : ℚ) : ∃ m : ℤ, pyRound2 q = (m : ℚ) / 100 := by
  unfold pyRound2
  split_ifs
  case _ => exact ⟨⌊q * 100⌋, rfl⟩
  case _ => exact ⟨⌊q * 100⌋ + 1, rfl⟩
  case _ => exact ⟨⌊q * 100⌋, rfl⟩
  case _ => exact ⟨⌊q * 100⌋ + 1, rfl⟩

theorem pyRound2_intCast_div (m : ℤ) : pyRound2 ((m : ℚ) / 100) = (m : ℚ) / 100 := by
  have hx : ((m : ℚ) / 100) * 100 = (m : ℚ) := by field_simp
  unfold pyRound2
  rw [hx, Int.floor_intCast]
  norm_num

theorem pyRound2_zero : pyRound2 0 = 0 := by
  have h := pyRound2_intCast_div 0
  simpa using h

theorem pyRound2_nonneg (q : ℚ) (hq : 0 ≤ q) : 0 ≤ pyRound2 q := by
  have h0 : (0 : ℤ) ≤ ⌊q * 100⌋ := Int.le_floor.mpr (by push_cast; positivity)
  unfold pyRound2
  split_ifs
  case _ => positivity
  case _ =>
    apply div_nonneg _ (by norm_num)
    exact_mod_cast (by omega : (0 : ℤ) ≤ ⌊q * 100⌋ + 1)
  case _ => positivity
  case _ =>
    apply div_nonneg _ (by norm_num)
    exact_mod_cast (by omega : (0 : ℤ) ≤ ⌊q * 100⌋ + 1)

theorem max_intCast_div (a b : ℤ) :
    max ((a : ℚ) / 100) ((b : ℚ) / 100) = ((max a b : ℤ) : ℚ) / 100 := by
  rcases le_total a b with h | h
  · rw [max_eq_right h, max_eq_right (by gcongr)]
  · rw [max_eq_left h, max_eq_left (by gcongr)]

theorem abs_intCast_div (a : ℤ) : |(a : ℚ) / 100| = ((|a| : ℤ) : ℚ) / 100 := by
  rw [abs_div, Int.cast_abs]
  norm_num

theorem pyRound2_fix_max (a b : ℤ) :
    pyRound2 (max ((a : ℚ) / 100) ((b : ℚ) / 100)) = max ((a : ℚ) / 100) ((b : ℚ) / 100) := by
  rw [max_intCast_div, pyRound2_intCast_div]

theorem pyRound2_fix_abs (a : ℤ) : pyRound2 |(a : ℚ) / 100| = |(a : ℚ) / 100| := by
  rw [abs_intCast_div, pyRound2_intCast_div]

theorem pyRound2_fix_max_zero (a : ℤ) :
    pyRound2 (max ((a : ℚ) / 100) 0) = max ((a : ℚ) / 100) 0 := by
  have h := pyRound2_fix_max a 0
  simpa using h

theorem clamp_disj (δ : ℚ) : pyRound2 (max δ 0) = 0 ∨ pyRound2 (max (-δ) 0) = 0 := by
  rcases le_total δ 0 with h | h
  · left; rw [max_eq_right h, pyRound2_zero]
  · right; rw [max_eq_right (by linarith), pyRound2_zero]

/-- C1 (counterexample): with prev_value = 0.004 (not a 2-decimal value), the
"/scratch" profile and deterministic draws (no drift, no noise, no spike, no
drop), the code computes value = round(0.004, 2) = 0 and
deleted = round(0.004, 2) = 0, while the claimed identity demands
deleted = max(prev_value - value, 0) = 0.004. -/
theorem c1_counterexample :
    (generate_value (1/250) scratchCfg d0).2.2.1
      ≠ max ((1/250 : ℚ) - (generate_value (1/250) scratchCfg d0).1) 0 := by
  norm_num [generate_value, scratchCfg, d0, pyRound2, max_def, abs]

/-- C1 (amended): whenever prev_value is an integer multiple of 0.01 — as is
every value the program actually threads through generate_value, since bases
are integers, persisted values are outputs of round(x, 2), and the fallback
adds 0.01 — the outputs of generate_value satisfy the exact identities
added = max(value - prev_value, 0), deleted = max(prev_value - value, 0),
updated = abs(value - prev_value), on the normal path (for every profile and
every random draw) and on the error-fallback path; for other prev_value the
outputs are those quantities rounded to 2 decimals, as the counterexample
shows. -/
theorem c1_theorem (k : ℤ) (cfg : Profile) (d : Draws) :
    ((generate_value ((k : ℚ) / 100) cfg d).2.1
        = max ((generate_value ((k : ℚ) / 100) cfg d).1 - (k : ℚ) / 100) 0)
    ∧ ((generate_value ((k : ℚ) / 100) cfg d).2.2.1
        = max ((k : ℚ) / 100 - (generate_value ((k : ℚ) / 100) cfg d).1) 0)
    ∧ ((generate_value ((k : ℚ) / 100) cfg d).2.2.2
        = |(generate_value ((k : ℚ) / 100) cfg d).1 - (k : ℚ) / 100|)
    ∧ ((generate_value_fallback ((k : ℚ) / 100)).2.1
        = max ((generate_value_fallback ((k : ℚ) / 100)).1 - (k : ℚ) / 100) 0)
    ∧ ((generate_value_fallback ((k : ℚ) / 100)).2.2.1
        = max ((k : ℚ) / 100 - (generate_value_fallback ((k : ℚ) / 100)).1) 0)
    ∧ ((generate_value_fallback ((k : ℚ) / 100)).2.2.2
        = |(generate_value_fallback ((k : ℚ) / 100)).1 - (k : ℚ) / 100|) := by
  obtain ⟨j, hj⟩ := pyRound2_form (max ((k : ℚ) / 100 + d.driftS +
      (d.changeS + (if d.spikeR < cfg.spike then d.spikeU else 0)
        - (if d.dropR < cfg.drop then d.dropU else 0))) 0)
  have hsub1 : (j : ℚ) / 100 - (k : ℚ) / 100 = ((j - k : ℤ) : ℚ) / 100 := by
    push_cast; ring
  have hsub2 : (k : ℚ) / 100 - (j : ℚ) / 100 = ((k - j : ℤ) : ℚ) / 100 := by
    push_cast; ring
  have hf1 : (k : ℚ) / 100 + 1 / 100 - (k : ℚ) / 100 = 1 / 100 := by ring
  have hf2 : (k : ℚ) / 100 - ((k : ℚ) / 100 + 1 / 100) = -(1 / 100) := by ring
  refine ⟨?_, ?_, ?_, ?_, ?_, ?_⟩
  · simp only [generate_value, hj]
    rw [hsub1]
    exact pyRound2_fix_max_zero (j - k)
  · simp only [generate_value, hj]
    rw [neg_sub, hsub2]
    exact pyRound2_fix_max_zero (k - j)
  · simp only [generate_value, hj]
    rw [hsub1]
    exact pyRound2_fix_abs (j - k)
  · simp only [generate_value_fallback]
    rw [hf1, max_eq_left (by norm_num)]
  · simp only [generate_value_fallback]
    rw [hf2, max_eq_right (by norm_num)]
  · simp only [generate_value_fallback]
    rw [hf1, abs_of_pos (by norm_num : (0 : ℚ) < 1 / 100)]

/-- C5: for every prev_value that is non-negative, every profile and every
random draw, the value produced by generate_value is non-negative, on the
normal path (where the level is clamped with max(.., 0) before rounding) and
on the error-fallback path (prev_value + 0.01). -/
theorem c5_theorem (prev : ℚ) (cfg : Profile) (d : Draws) (h : 0 ≤ prev) :
    0 ≤ (generate_value prev cfg d).1 ∧ 0 ≤ (generate_value_fallback prev).1 := by
  constructor
  · exact pyRound2_nonneg _ (le_max_right _ _)
  · simp only [generate_value_fallback]
    linarith

/-- C5 witness: the non-negativity theorem applied at prev_value = 0 with the
"/scratch" profile and the deterministic draw d0. -/
theorem c5_witness :
    0 ≤ (generate_value 0 scratchCfg d0).1 ∧ 0 ≤ (generate_value_fallback 0).1 :=
  c5_theorem 0 scratchCfg d0 (by norm_num)

/-- C10: in every call of generate_value at most one of added and deleted is
positive: added and deleted are the positive and negative parts of the same
delta, so at least one of them is zero; on the error-fallback path deleted is
zero while added = 0.01 is positive. -/
theorem c10_theorem (prev : ℚ) (cfg : Profile) (d : Draws) :
    ((generate_value prev cfg d).2.1 = 0 ∨ (generate_value prev cfg d).2.2.1 = 0)
    ∧ (generate_value_fallback prev).2.2.1 = 0
    ∧ 0 < (generate_value_fallback prev).2.1 := by
  refine ⟨?_, rfl, by norm_num [generate_value_fallback]⟩
  simpa only [generate_value] using clamp_disj ((generate_value prev cfg d).1 - prev)

theorem dateRangeAux_length (n : ℕ) : ∀ s : ℤ, (dateRangeAux s n).length = n := by
  induction n with
  | zero => intro s; rfl
  | succ n ih => intro s; simp [dateRangeAux, ih]

theorem dateRangeAux_chain (n : ℕ) :
    ∀ s : ℤ, List.Chain' (fun a b => b = a + 15) (dateRangeAux s n) := by
  induction n with
  | zero => intro s; simp [dateRangeAux]
  | succ n ih =>
    intro s
    rw [dateRangeAux]
    refine List.chain'_cons'.mpr ⟨?_, ih (s + 15)⟩
    intro b hb
    cases n with
    | zero => simp [dateRangeAux] at hb
    | succ m =>
      rw [dateRangeAux] at hb
      simp only [List.head?_cons, Option.mem_def, Option.some.injEq] at hb
      omega

theorem dateRangeAux_mem (n : ℕ) :
    ∀ s t : ℤ, t ∈ dateRangeAux s n ↔ ∃ k : ℕ, k < n ∧ t = s + 15 * k := by
  induction n with
  | zero => intro s t; simp [dateRangeAux]
  | succ n ih =>
    intro s t
    rw [dateRangeAux]
    simp only [List.mem_cons, ih (s + 15)]
    constructor
    · rintro (rfl | ⟨k, hk, rfl⟩)
      · exact ⟨0, by omega, by push_cast; ring⟩
      · exact ⟨k + 1, by omega, by push_cast; ring⟩
    · rintro ⟨k, hk, rfl⟩
      cases k with
      | zero => left; push_cast; ring
      | succ m => right; exact ⟨m, by omega, by push_cast; ring⟩

theorem genDocs_timestamps (dirName : String) (cfg : Profile) (r : ℕ → Draws) :
    ∀ (ts : List ℤ) (i : ℕ) (prev : ℚ),
      ((genDocs dirName cfg r i prev ts).2).map Sample.timestamp = ts := by
  intro ts
  induction ts with
  | nil => intro i prev; rfl
  | cons t rest ih => intro i prev; simp [genDocs, ih]

theorem storeAfter_nil (latest : Option (ℤ × ℚ)) : storeAfter latest [] = latest := rfl

/-- C2 (counterexample): on an empty series with now = epoch origin + 30
minutes, the code backfills exactly two samples (at origin+15 and origin+30),
while the claim demands floor((now - origin)/cadence) + 1 = 3 samples
(at origin, origin+15 and origin+30): get_last_timestamp's fallback makes
the code treat the origin itself as already persisted, so backfill starts at
origin + cadence. -/
theorem c2_counterexample :
    ((backfillSeries "/scratch" scratchCfg none 30 (fun _ => d0) false).2).length
      ≠ (((30 : ℤ) - epochOrigin) / 15 + 1).toNat := by
  norm_num [backfillSeries, generate_and_bulk_insert, dateRange, dateRangeAux,
    epochOrigin, genDocs]
  omega

/-- C2 (amended): backfill on a series with no persisted samples produces one
sample at every aligned boundary from origin + cadence (not the origin
itself) through now inclusive: the timestamps are exactly origin + 15,
origin + 30, ..., the sample count is floor((now - origin)/cadence) (not
+ 1), and timestamps are strictly increasing, spaced exactly 15 minutes. -/
theorem c2_theorem (dirName : String) (cfg : Profile) (r : ℕ → Draws) (now : ℤ) :
    (((backfillSeries dirName cfg none now r false).2).map Sample.timestamp
        = dateRangeAux (epochOrigin + 15) ((now - epochOrigin) / 15).toNat)
    ∧ ((backfillSeries dirName cfg none now r false).2).length
        = ((now - epochOrigin) / 15).toNat
    ∧ List.Chain' (fun a b => b = a + 15)
        (((backfillSeries dirName cfg none now r false).2).map Sample.timestamp)
    ∧ (∀ t ∈ ((backfillSeries dirName cfg none now r false).2).map Sample.timestamp,
        epochOrigin + 15 ≤ t ∧ t ≤ now) := by
  have hmap : ((backfillSeries dirName cfg none now r false).2).map Sample.timestamp
      = dateRangeAux (epochOrigin + 15) ((now - epochOrigin) / 15).toNat := by
    simp only [backfillSeries, Option.map_none', Option.getD_none, epochOrigin, zero_add]
    by_cases h : (15 : ℤ) ≤ now
    · rw [if_pos h]
      have hd : dateRange 15 now = dateRangeAux 15 ((now - 15) / 15 + 1).toNat := by
        simp [dateRange, h]
      have hn : ((now - 15) / 15 + 1).toNat = ((now - 0) / 15).toNat := by omega
      simp only [generate_and_bulk_insert]
      rw [hd, hn]
      cases hh : dateRangeAux 15 ((now - 0) / 15).toNat with
      | nil => simp [hh]
      | cons a l =>
        simp only [Bool.false_eq_true, if_false]
        rw [← hh]
        exact genDocs_timestamps dirName cfg r _ 0 cfg.base
    · rw [if_neg h]
      have : ((now - 0) / 15).toNat = 0 := by omega
      rw [this]
      rfl
  refine ⟨hmap, ?_, ?_, ?_⟩
  · have := congrArg List.length hmap
    simpa [dateRangeAux_length] using this
  · rw [hmap]; exact dateRangeAux_chain _ _
  · intro t ht
    rw [hmap] at ht
    rw [dateRangeAux_mem] at ht
    obtain ⟨k, hk, rfl⟩ := ht
    have hk2 : (k : ℤ) < (now - epochOrigin) / 15 := by
      simp only [epochOrigin] at hk ⊢
      omega
    simp only [epochOrigin] at hk2 ⊢
    omega

/-- C2 witness: the amended backfill shape at now = origin + 30 minutes on
the "/scratch" profile (two samples, at 15 and 30). -/
theorem c2_witness :
    (((backfillSeries "/scratch" scratchCfg none 30 (fun _ => d0) false).2).map Sample.timestamp
        = dateRangeAux (epochOrigin + 15) (((30 : ℤ) - epochOrigin) / 15).toNat)
    ∧ ((backfillSeries "/scratch" scratchCfg none 30 (fun _ => d0) false).2).length
        = (((30 : ℤ) - epochOrigin) / 15).toNat
    ∧ List.Chain' (fun a b => b = a + 15)
        (((backfillSeries "/scratch" scratchCfg none 30 (fun _ => d0) false).2).map Sample.timestamp)
    ∧ (∀ t ∈ ((backfillSeries "/scratch" scratchCfg none 30 (fun _ => d0) false).2).map Sample.timestamp,
        epochOrigin + 15 ≤ t ∧ t ≤ 30) :=
  c2_theorem "/scratch" scratchCfg (fun _ => d0) 30

/-- C3: the claim that every persisted sample's timestamp is UTC-normalized
before storage fails on live_inserter.py: the live-mode write (line 211)
stores datetime.now().replace(second=0, microsecond=0), a timezone-naive
local-time datetime (here: a host 330 minutes ahead of UTC at true instant
0), while main.py's get_utc_datetime_iso does produce a UTC-normalized
timestamp. -/
theorem c3_theorem :
    ¬ utcNormalized (live_doc_timestamp 0 330) 0
    ∧ utcNormalized (get_utc_datetime_iso 0) 0 := by
  constructor
  · intro h
    exact Option.noConfusion h.1
  · exact ⟨rfl, rfl⟩

/-- C6: if a series' first missing boundary (latest persisted timestamp +
cadence) is after now, backfill writes nothing and returns the persisted
value unchanged; and a second backfill call with no time elapsed (on the
unchanged store, with any fresh randomness or insert outcome) again writes
nothing and returns the same value. -/
theorem c6_theorem (dirName : String) (cfg : Profile) (latest : Option (ℤ × ℚ))
    (now : ℤ) (r r2 : ℕ → Draws) (f f2 : Bool)
    (h : now < (latest.map Prod.fst).getD epochOrigin + 15) :
    backfillSeries dirName cfg latest now r f
        = ((latest.map Prod.snd).getD cfg.base, [])
    ∧ backfillSeries dirName cfg
        (storeAfter latest (backfillSeries dirName cfg latest now r f).2) now r2 f2
        = ((latest.map Prod.snd).getD cfg.base, []) := by
  have hb : backfillSeries dirName cfg latest now r f
      = ((latest.map Prod.snd).getD cfg.base, []) := by
    simp only [backfillSeries]
    rw [if_neg (not_le.mpr h)]
  refine ⟨hb, ?_⟩
  rw [hb, storeAfter_nil]
  simp only [backfillSeries]
  rw [if_neg (not_le.mpr h)]

/-- C6 witness: a series whose latest persisted sample is at minute 100 with
value 5, probed at now = 100 (first missing boundary 115 > 100). -/
theorem c6_witness :
    backfillSeries "/scratch" scratchCfg (some (100, 5)) 100 (fun _ => d0) false
        = (5, [])
    ∧ backfillSeries "/scratch" scratchCfg
        (storeAfter (some (100, 5))
          (backfillSeries "/scratch" scratchCfg (some (100, 5)) 100 (fun _ => d0) false).2)
        100 (fun _ => dUp) true
        = (5, []) :=
  c6_theorem "/scratch" scratchCfg (some (100, 5)) 100 (fun _ => d0) (fun _ => dUp)
    false true (by norm_num [epochOrigin])

/-- C9: in the live loop, whenever the computed sleep duration
(next 15-minute slot minus the current wall clock) is zero or negative, the
scheduler sleeps the full cadence of 15*60 seconds instead. -/
theorem c9_theorem (nowSnap current : ℚ) (h : nowSnap + 15 * 60 - current ≤ 0) :
    live_sleep_seconds nowSnap current = 15 * 60 := by
  simp only [live_sleep_seconds]
  rw [if_pos h]

/-- C9 witness: a cycle whose processing ran a full cadence late. -/
theorem c9_witness : live_sleep_seconds 0 900 = 15 * 60 :=
  c9_theorem 0 900 (by norm_num)

theorem pingTimesAux_fired (n : ℕ) :
    ∀ p t : ℤ, p ≤ t → pingTimesAux p t n = dateRangeAux t n := by
  induction n with
  | zero => intro p t _; rfl
  | succ n ih =>
    intro p t h
    simp only [pingTimesAux, dateRangeAux, if_pos h]
    rw [ih (t + 5) (t + 15) (by omega)]

/-- C4: the claim that consecutive liveness probes are about 5 minutes apart
fails on the code (and contradicts the code's own comment "Self-ping every 5
mins"): the 5-minute deadline next_ping_time is only examined once per
15-minute sampling cycle, so in a live loop entered at t0 whose cycles run at
t0, t0+15, t0+30, ..., pings fire at t0+15, t0+30, ... — consecutive probes
are separated by the full 15-minute sampling cadence, not by 5 minutes. -/
theorem c4_theorem (t0 : ℤ) (n : ℕ) :
    pingTimes t0 (n + 1) = dateRangeAux (t0 + 15) n
    ∧ List.Chain' (fun a b => b = a + 15) (pingTimes t0 (n + 1)) := by
  have h : pingTimes t0 (n + 1) = dateRangeAux (t0 + 15) n := by
    rw [pingTimes]
    simp only [pingTimesAux, if_neg (by omega : ¬ t0 + 5 ≤ t0)]
    exact pingTimesAux_fired n (t0 + 5) (t0 + 15) (by omega)
  exact ⟨h, h ▸ dateRangeAux_chain n (t0 + 15)⟩

/-- C7 (counterexample): backfilling one boundary (start_ts = end_ts = 0)
from prev_value = 1500 with a draw that deterministically adds 1, with the
bulk insert failing: the except branch returns the loop-local prev_val,
already reassigned to the generated 1501 — not the caller's original 1500
that the claim demands. -/
theorem c7_counterexample :
    (generate_and_bulk_insert "/scratch" scratchCfg 0 0 1500 (fun _ => dUp) true).1
      ≠ 1500 := by
  have hd : dateRange 0 0 = [0] := by decide
  have hg : generate_value 1500 scratchCfg dUp = (1501, 1, 0, 1) := by
    norm_num [generate_value, scratchCfg, dUp, pyRound2, max_def, abs]
  simp only [generate_and_bulk_insert, hd, genDocs, hg]
  norm_num

/-- C7 (amended): when the bulk insert of a series' backfilled samples fails,
nothing is persisted and the returned timestamp is start_ts - cadence, but
the function returns the last generated value (the generator chain threaded
over all missing boundaries), not the caller's original prev_value — the
in-memory state silently advances past the unpersisted gap. -/
theorem c7_theorem (dirName : String) (cfg : Profile) (start_ts end_ts : ℤ)
    (prev : ℚ) (r : ℕ → Draws) (h : start_ts ≤ end_ts) :
    (generate_and_bulk_insert dirName cfg start_ts end_ts prev r true).2.2 = []
    ∧ (generate_and_bulk_insert dirName cfg start_ts end_ts prev r true).2.1
        = start_ts - 15
    ∧ (generate_and_bulk_insert dirName cfg start_ts end_ts prev r true).1
        = (genDocs dirName cfg r 0 prev (dateRange start_ts end_ts)).1 := by
  have hne : dateRange start_ts end_ts ≠ [] := by
    rw [dateRange, if_pos h]
    have h0 : ((end_ts - start_ts) / 15 + 1).toNat ≠ 0 := by omega
    cases hn : ((end_ts - start_ts) / 15 + 1).toNat with
    | zero => exact absurd hn h0
    | succ m => simp [dateRangeAux]
  cases hd : dateRange start_ts end_ts with
  | nil => exact absurd hd hne
  | cons a l =>
    simp [generate_and_bulk_insert, hd]

/-- C7 witness: the amended behaviour at one concrete failing bulk insert. -/
theorem c7_witness :
    (generate_and_bulk_insert "/scratch" scratchCfg 0 0 1500 (fun _ => d0) true).2.2 = []
    ∧ (generate_and_bulk_insert "/scratch" scratchCfg 0 0 1500 (fun _ => d0) true).2.1
        = 0 - 15
    ∧ (generate_and_bulk_insert "/scratch" scratchCfg 0 0 1500 (fun _ => d0) true).1
        = (genDocs "/scratch" scratchCfg (fun _ => d0) 0 1500 (dateRange 0 0)).1 :=
  c7_theorem "/scratch" scratchCfg 0 0 1500 (fun _ => d0) (by norm_num)

/-- C8: the backfill loop isolates per-series errors: every series in the
profiles table yields a last_vals entry whatever the per-series outcomes; a
series whose processing raises falls back to its profile's base with nothing
written; and injecting an error into the processing of one series d leaves
every other series' result (value and writes) unchanged. -/
theorem c8_theorem (series : List (String × Profile)) (envs : String → SeriesEnv)
    (now : ℤ) (d : String) :
    ((backfillPhase series envs now).map Prod.fst = series.map Prod.fst)
    ∧ (∀ p ∈ series, (envs p.1).procErr = true →
        processSeries p.1 p.2 (envs p.1) now = (p.2.base, []))
    ∧ (∀ p ∈ series, p.1 ≠ d →
        processSeries p.1 p.2 (setErr envs d p.1) now
          = processSeries p.1 p.2 (envs p.1) now) := by
  refine ⟨?_, ?_, ?_⟩
  · simp [backfillPhase]
  · intro p _ herr
    simp [processSeries, herr]
  · intro p _ hne
    have hs : setErr envs d p.1 = envs p.1 := by
      simp [setErr, hne]
    rw [hs]

/-- C8 witness: the isolation theorem applied to the actual four-profile
table with benign environments, singling out "/scratch". -/
theorem c8_witness :
    ((backfillPhase profiles (fun _ => env0) 30).map Prod.fst = profiles.map Prod.fst)
    ∧ (∀ p ∈ profiles, ((fun _ : String => env0) p.1).procErr = true →
        processSeries p.1 p.2 ((fun _ : String => env0) p.1) 30 = (p.2.base, []))
    ∧ (∀ p ∈ profiles, p.1 ≠ "/scratch" →
        processSeries p.1 p.2 (setErr (fun _ => env0) "/scratch" p.1) 30
          = processSeries p.1 p.2 ((fun _ : String => env0) p.1) 30) :=
  c8_theorem profiles (fun _ => env0) 30 "/scratch"

end HPE
